import Mathlib

/-!
Verification development for the OISB input-binding core
(`source/oisb/OISBSystem.cpp` of the stuntrally repository).

The C++ code is shallowly embedded: `std::string` becomes `List Char`
(`Str`), the `std::map` registries become association lists, raw pointers
that matter only through identity become `Nat` ids, C++ exceptions become
the `Except Err` monad, and the rapidxml document (whose parser is outside
the specified core) becomes an inductive tree of nodes with a tag, an
ordered attribute list, a text value and ordered children.
-/

namespace OISB

/-- C++ `std::string` modelled as a list of characters (byte = char). -/
abbrev Str := List Char

/-- Convenience conversion for concrete examples. -/
def str (s : String) : Str := s.data

/-- The C++ exception classes that the embedded functions can raise
(`OIS::E_General`, `OIS::E_Duplicate`) plus `std::out_of_range`
raised by `std::string::substr` on an out-of-bounds position. -/
inductive Err where
  | general
  | duplicate
  | outOfRange
deriving DecidableEq

/-- Turn an exception-carrying result into a nullable one. -/
def exceptToOption {α : Type} : Except Err α → Option α
  | .ok a => some a
  | .error _ => none

/-- First value stored under key `k` in an association list
(`std::map::find`; registries keep keys unique, so first = only). -/
def lookupAssoc {α : Type} : List (Str × α) → Str → Option α
  | [], _ => none
  | (k', v) :: rest, k => if k' = k then some v else lookupAssoc rest k

/-- Overwrite the value stored under `k`, or append the pair if absent
(write-back through a `std::map` iterator / `operator[]`). -/
def setAssoc {α : Type} : List (Str × α) → Str → α → List (Str × α)
  | [], k, v => [(k, v)]
  | (k', v') :: rest, k, v =>
      if k' = k then (k, v) :: rest else (k', v') :: setAssoc rest k v

/-- Remove the first entry stored under `k` (`std::map::erase`). -/
def eraseKey {α : Type} : List (Str × α) → Str → List (Str × α)
  | [], _ => []
  | (k', v') :: rest, k => if k' = k then rest else (k', v') :: eraseKey rest k

/-! ## C++ string primitives -/

/-- `std::string::npos` for a 64-bit `size_type`. -/
def npos : Nat := 2 ^ 64 - 1

/-- The modulus of `std::string::size_type` arithmetic. -/
def size64 : Nat := 2 ^ 64

/-- Helper for `find`: position of the first occurrence of `t` at or after
accumulator position `k`, or `npos` when absent. -/
def strFindAux (t : Char) : Str → Nat → Nat
  | [], _ => npos
  | c :: cs, k => if c = t then k else strFindAux t cs (k + 1)

/-- `std::string::find` for a single-character needle
(the source only ever searches for `"/"`). -/
def strFind (s : Str) (t : Char) : Nat := strFindAux t s 0

/-- `std::string::substr(pos, cnt)`: throws `std::out_of_range` when
`pos` exceeds the size, otherwise yields `cnt` characters (clamped)
starting at `pos`.  `substr(pos)` is `substr pos npos`. -/
def substr (s : Str) (pos cnt : Nat) : Except Err Str :=
  if pos ≤ s.length then .ok ((s.drop pos).take cnt) else .error .outOfRange

/-! ## Document model

The spec places the markup parser outside the core: "the core only
requires a tree-structured document: nodes with a tag, an ordered list of
name/value attributes, an optional text value, and ordered child nodes".
rapidxml's `first_node(tag)` / `first_attribute(name)` find the first
child / attribute with the given name; a node iteration that starts at
`first_node(tag)` and then follows `next_sibling()` visits the suffix of
the child list starting at that first match, regardless of later tags. -/

structure XmlAttr where
  name : Str
  value : Str
deriving DecidableEq

inductive XmlNode where
  | mk (tag : Str) (attrs : List XmlAttr) (text : Str) (children : List XmlNode)

def XmlNode.tag : XmlNode → Str
  | .mk t _ _ _ => t

def XmlNode.attrs : XmlNode → List XmlAttr
  | .mk _ a _ _ => a

def XmlNode.text : XmlNode → Str
  | .mk _ _ tx _ => tx

def XmlNode.children : XmlNode → List XmlNode
  | .mk _ _ _ ch => ch

/-- rapidxml `first_attribute(name)`. -/
def firstAttr : List XmlAttr → Str → Option XmlAttr
  | [], _ => none
  | a :: rest, n => if a.name = n then some a else firstAttr rest n

/-- rapidxml `first_node(tag)` over a list of sibling nodes. -/
def firstNodeOf (tag : Str) : List XmlNode → Option XmlNode
  | [] => none
  | c :: rest => if c.tag = tag then some c else firstNodeOf tag rest

/-- The nodes visited by `for (n = parent->first_node(tag); n; n = n->next_sibling())`:
the suffix of the sibling list starting at the first node tagged `tag`
(later siblings are visited whatever their tag, exactly as in the source). -/
def nodesFrom (tag : Str) : List XmlNode → List XmlNode
  | [] => []
  | c :: rest => if c.tag = tag then c :: rest else nodesFrom tag rest

/-! ## Entity model -/

/-- `ActionType` discriminant (`AT_TRIGGER`, `AT_ANALOG_AXIS`, `AT_SEQUENCE`). -/
inductive ActionType where
  | AT_TRIGGER
  | AT_ANALOG_AXIS
  | AT_SEQUENCE
deriving DecidableEq

/-- The `Bindable*` stored in one slot of `Binding::mBindables`:
the null pointer ("dummy bindable" in the save code), the magic
`(Bindable*)1` reserved-but-unbound placeholder, or a real Bindable,
which the serializer only observes through `getBindableName()`,
so it is represented here by that name. -/
inductive BindTarget where
  | null
  | reserved
  | bound (name : Str)
deriving DecidableEq

/-- `OISB::Binding`: ordered (role, Bindable) slots plus the optional flag. -/
structure Binding where
  mOptional : Bool
  mBindables : List (Str × BindTarget)
deriving DecidableEq

/-- `OISB::Action`: name, variant discriminant, property table, bindings.
The property table is modelled from the spec ("a property table
(string key → string-serializable value)") as an association list. -/
structure Action where
  name : Str
  actionType : ActionType
  props : List (Str × Str)
  mBindings : List Binding
deriving DecidableEq

/-- `OISB::ActionSchema`: registry of owned Actions keyed by name.
`id` models the object's pointer identity (allocation number). -/
structure ActionSchema where
  id : Nat
  name : Str
  mActions : List (Str × Action)
deriving DecidableEq

/-- `OISB::Device` as far as lookup is concerned: a mapping from state
name to State.  Modelled from the spec: "Device owns a mapping from
state name → State"; a State's pointer identity is a `Nat` id. -/
structure Device where
  states : List (Str × Nat)
deriving DecidableEq

/-- `OISB::System`: device registry, action-schema registry, nullable
default-schema pointer (by id).  `nextId` models the allocator: every
`new` object receives a fresh id. -/
structure System where
  mDevices : List (Str × Device)
  mActionSchemas : List (Str × ActionSchema)
  mDefaultActionSchema : Option Nat
  nextId : Nat
deriving DecidableEq

/-! ## Device / state lookup -/

/-- Modelled from the spec: `Device::hasState` is membership in the
device's state map. -/
def Device.hasState (d : Device) (n : Str) : Bool :=
  (lookupAssoc d.states n).isSome

/-- Modelled from the spec: `Device::getState` returns the named State,
raising a general failure when it is absent. -/
def Device.getState (d : Device) (n : Str) : Except Err Nat :=
  match lookupAssoc d.states n with
  | some s => .ok s
  | none => .error .general

/-- `System::hasDevice` (source lines 202-207). -/
def System.hasDevice (sys : System) (n : Str) : Bool :=
  (lookupAssoc sys.mDevices n).isSome

/-- `System::getDevice` (source lines 190-200): throws `OIS::E_General`
when the device is not registered. -/
def System.getDevice (sys : System) (n : Str) : Except Err Device :=
  match lookupAssoc sys.mDevices n with
  | some d => .ok d
  | none => .error .general

/-- `System::lookupState` (source lines 209-227): split the path at the
first `"/"`, then `substr(0, i)` / `substr(i + 1)` with `size_type`
arithmetic (`npos + 1` wraps to `0`, so a separator-less path reuses the
whole string for both names). -/
def System.lookupState (sys : System) (name : Str) : Except Err (Option Nat) :=
  match substr name 0 (strFind name '/') with
  | .error e => .error e
  | .ok deviceName =>
    if sys.hasDevice deviceName then
      match sys.getDevice deviceName with
      | .error e => .error e
      | .ok dev =>
        match substr name ((strFind name '/' + 1) % size64) npos with
        | .error e => .error e
        | .ok stateName =>
          if dev.hasState stateName then
            match dev.getState stateName with
            | .error e => .error e
            | .ok st => .ok (some st)
          else .ok none
    else .ok none

/-! ## Action-schema registry -/

/-- `System::hasActionSchema` (source lines 570-575). -/
def System.hasActionSchema (sys : System) (n : Str) : Bool :=
  (lookupAssoc sys.mActionSchemas n).isSome

/-- `System::getActionSchema` (source lines 558-568). -/
def System.getActionSchema (sys : System) (n : Str) : Except Err ActionSchema :=
  match lookupAssoc sys.mActionSchemas n with
  | some s => .ok s
  | none => .error .general

/-- `System::createActionSchema` (source lines 513-531): duplicate name
throws `OIS::E_Duplicate` before any mutation; otherwise a fresh schema
is allocated, registered, optionally made default, and returned. -/
def System.createActionSchema (sys : System) (name : Str) (setAsDefault : Bool) :
    Except Err (ActionSchema × System) :=
  if (lookupAssoc sys.mActionSchemas name).isSome then
    .error .duplicate
  else
    let ret : ActionSchema := ⟨sys.nextId, name, []⟩
    let sys' : System :=
      { sys with
        mActionSchemas := sys.mActionSchemas ++ [(name, ret)],
        nextId := sys.nextId + 1 }
    .ok (ret, if setAsDefault then { sys' with mDefaultActionSchema := some ret.id } else sys')

/-- `System::destroyActionSchema` (source lines 533-551): unknown name
throws; otherwise the entry is erased from the registry and, when the
erased schema **is** (pointer comparison) the default, the default
reference is nulled. -/
def System.destroyActionSchema (sys : System) (name : Str) : Except Err System :=
  match lookupAssoc sys.mActionSchemas name with
  | none => .error .general
  | some schema =>
    let sys' : System := { sys with mActionSchemas := eraseKey sys.mActionSchemas name }
    if sys'.mDefaultActionSchema = some schema.id then
      .ok { sys' with mDefaultActionSchema := none }
    else
      .ok sys'

/-- `System::getDefaultActionSchemaAutoCreate` (source lines 587-595):
when no default exists, `createActionSchema("Default", true)` first; the
final `getDefaultActionSchema()` getter (declared in the header, outside
`src/`) is modelled from the spec: it returns the nullable default
reference. -/
def System.getDefaultActionSchemaAutoCreate (sys : System) :
    Except Err (Option Nat × System) :=
  if sys.mDefaultActionSchema = none then
    match sys.createActionSchema (str "Default") true with
    | .error e => .error e
    | .ok (_, sys') => .ok (sys'.mDefaultActionSchema, sys')
  else
    .ok (sys.mDefaultActionSchema, sys)

/-! ## Schema / action lookup -/

/-- Modelled from the spec: `ActionSchema::hasAction` is membership in
the schema's action map. -/
def ActionSchema.hasAction (sc : ActionSchema) (n : Str) : Bool :=
  (lookupAssoc sc.mActions n).isSome

/-- Modelled from the spec: `ActionSchema::getAction` returns the named
Action, raising a general failure when it is absent. -/
def ActionSchema.getAction (sc : ActionSchema) (n : Str) : Except Err Action :=
  match lookupAssoc sc.mActions n with
  | some a => .ok a
  | none => .error .general

/-- `System::lookupAction` (source lines 597-631): same path split as
`lookupState`; on a missing schema or action it either returns null or
throws `OIS::E_General`, as selected by `throwOnMissing`. -/
def System.lookupAction (sys : System) (name : Str) (throwOnMissing : Bool) :
    Except Err (Option Action) :=
  match substr name 0 (strFind name '/') with
  | .error e => .error e
  | .ok schemaName =>
    if sys.hasActionSchema schemaName then
      match sys.getActionSchema schemaName with
      | .error e => .error e
      | .ok schema =>
        match substr name ((strFind name '/' + 1) % size64) npos with
        | .error e => .error e
        | .ok actionName =>
          if schema.hasAction actionName then
            match schema.getAction actionName with
            | .error e => .error e
            | .ok a => .ok (some a)
          else if throwOnMissing then .error .general
          else .ok none
    else if throwOnMissing then .error .general
    else .ok none

/-! ## Persistence: loading -/

/-- Modelled from the spec: `Bindable::setProperty` stores the pair in
the property table ("used uniformly for configuration and for XML
round-trip"; unknown keys "are accepted and simply stored"). -/
def Action.setProperty (a : Action) (k v : Str) : Action :=
  { a with props := setAssoc a.props k v }

/-- Modelled from the spec: `Binding::bind(targetPath, role)` appends a
(role, target) slot; the literal `"None"` text denotes the
reserved-but-unbound placeholder, any other text a target referenced by
name (resolution is lazy and by name). -/
def Binding.bindPath (b : Binding) (path role : Str) : Binding :=
  { b with
    mBindables :=
      b.mBindables ++ [(role, if path = str "None" then .reserved else .bound path)] }

/-- Modelled from the spec: `Action::bind(targetPath)` creates a fresh
Binding holding the single role-less slot. -/
def Action.bindPath (a : Action) (path : Str) : Action :=
  { a with
    mBindings :=
      a.mBindings ++ [⟨false, [([], if path = str "None" then .reserved else .bound path)]⟩] }

/-- `System::processActionBindXML` (source lines 490-509): reads the
optional `role` attribute, then binds the node's text either into the
given Binding (role-qualified when the role is non-empty) or, when no
Binding was given, directly on the Action; a missing action is the
per-node failure code 1.  Returns the status together with the updated
binding and action. -/
def processActionBindXML (bindNode : XmlNode) (binding : Option Binding)
    (action : Option Action) : Nat × Option Binding × Option Action :=
  match action with
  | none => (1, binding, none)
  | some act =>
    let role : Str :=
      match firstAttr bindNode.attrs (str "role") with
      | some a => a.value
      | none => []
    match binding with
    | some b =>
      if role ≠ [] then (0, some (b.bindPath bindNode.text role), some act)
      else (0, some (b.bindPath bindNode.text []), some act)
    | none => (0, none, some (act.bindPath bindNode.text))

/-- `System::processActionBindingXML` (source lines 479-488): a null
action is failure code 1; otherwise `createBinding` (modelled from the
spec: appends a fresh empty Binding to the action), then
`mOptional = first_attribute("optional")` — the pointer-to-bool
conversion makes the flag depend only on the attribute's presence — then
the bind children populate the binding.  In the source the binding is
appended at creation and mutated in place; here it is built and appended
once, which produces the same final action. -/
def processActionBindingXML (bindingNode : XmlNode) (action : Option Action) :
    Nat × Option Action :=
  match action with
  | none => (1, none)
  | some act =>
    let b0 : Binding :=
      { mOptional := (firstAttr bindingNode.attrs (str "optional")).isSome,
        mBindables := [] }
    let bFinal :=
      (nodesFrom (str "bind") bindingNode.children).foldl
        (fun b child => ((processActionBindXML child (some b) (some act)).2.1).getD b) b0
    (0, some { act with mBindings := act.mBindings ++ [bFinal] })

/-- The type-string dispatch table of `System::processActionXML`
(source lines 458-466): which Action variant each of the three
recognised type strings selects (a fresh Action with empty property
table and no bindings); any other type string selects nothing.  The
construction itself goes through `createActionInSchema`, which carries
`createAction`'s Duplicate failure. -/
def createActionOfType (t n : Str) : Option Action :=
  if t = str "AnalogAxis" then some ⟨n, .AT_ANALOG_AXIS, [], []⟩
  else if t = str "Sequence" then some ⟨n, .AT_SEQUENCE, [], []⟩
  else if t = str "Trigger" then some ⟨n, .AT_TRIGGER, [], []⟩
  else none

/-- Modelled from the spec: `ActionSchema::createAction<T>(name)`
(outside `src/`) "fails with a Duplicate error if `name` already exists
in the schema; otherwise constructs the typed Action, registers it,
returns it" (spec 4.4; duplicate name registration is an immediate hard
failure per spec 7).  Combined here with the dispatch of source lines
458-466: an unrecognised type string constructs nothing and is not an
error.  Registration of the returned action is the write-back in
`processActionXML`. -/
def createActionInSchema (schema : ActionSchema) (t n : Str) :
    Except Err (Option Action) :=
  match createActionOfType t n with
  | none => .ok none
  | some a => if schema.hasAction n then .error .duplicate else .ok (some a)

/-- One iteration of the attribute loop of `System::processActionXML`
(source lines 447-467), threading `(type, name, tmpAction)`: `type` and
`name` attributes update the local variables; any other attribute is
stored via the property table when the action already exists and is
silently dropped when it does not; afterwards the action is constructed
as soon as both `type` and `name` are non-empty.  A Duplicate failure
raised by `createAction` propagates through the remaining iterations. -/
def actionAttrStep (schema : ActionSchema) (st : Except Err (Str × Str × Option Action))
    (attr : XmlAttr) : Except Err (Str × Str × Option Action) :=
  match st with
  | .error e => .error e
  | .ok (t, n, tmp) =>
    let next : Str × Str × Option Action :=
      if attr.name = str "type" then (attr.value, n, tmp)
      else if attr.name = str "name" then (t, attr.value, tmp)
      else
        match tmp with
        | some a => (t, n, some (a.setProperty attr.name attr.value))
        | none => (t, n, none)
    if next.1 ≠ [] ∧ next.2.1 ≠ [] ∧ next.2.2 = none then
      match createActionInSchema schema next.1 next.2.1 with
      | .error e => .error e
      | .ok created => .ok (next.1, next.2.1, created)
    else .ok next

/-- `System::processActionXML` (source lines 439-477): fold the
attribute loop, then the `binding` children, then the stray `bind`
children; every non-raising path returns code 0 for a present node, and
a Duplicate failure from `createAction` propagates to the caller.  In
the source `createAction` registers the action in the schema at creation
time (checking for a duplicate name then) and `tmpAction` aliases that
registered object; since the schema is not otherwise consulted during
this node's processing, checking at creation time against the entry
schema and writing the fully built action back once at the end yields
the same final schema. -/
def processActionXML (actionNode : XmlNode) (schema : ActionSchema) :
    Except Err (Nat × ActionSchema) :=
  match actionNode.attrs.foldl (actionAttrStep schema) (.ok ([], [], none)) with
  | .error e => .error e
  | .ok s0 =>
    let tmp1 :=
      (nodesFrom (str "binding") actionNode.children).foldl
        (fun t child => (processActionBindingXML child t).2) s0.2.2
    let tmp2 :=
      (nodesFrom (str "bind") actionNode.children).foldl
        (fun t child => (processActionBindXML child none t).2.2) tmp1
    match tmp2 with
    | none => .ok (0, schema)
    | some a => .ok (0, { schema with mActions := setAssoc schema.mActions a.name a })

/-- The action-node loop of `System::processSchemaXML` (source lines
433-434): each node's status code is discarded, but an exception raised
by `createAction` inside `processActionXML` escapes the loop. -/
def processActionList : ActionSchema → List XmlNode → Except Err ActionSchema
  | sc, [] => .ok sc
  | sc, child :: rest =>
    match processActionXML child sc with
    | .error e => .error e
    | .ok (_, sc') => processActionList sc' rest

/-- `System::processSchemaXML` (source lines 418-437): a schema node
without a `name` attribute is the malformed code 2; otherwise the named
schema is created when absent and reused when present, all nodes from the
first `action` child are processed (their codes ignored), and the updated
schema is written back.  Exceptions escaping `createActionSchema` or an
action node's `createAction` propagate, hence the `Except` return. -/
def processSchemaXML (sys : System) (schemaNode : XmlNode) : Except Err (Nat × System) :=
  match firstAttr schemaNode.attrs (str "name") with
  | none => .ok (2, sys)
  | some a =>
    let schemaName := a.value
    let acquire : Except Err (ActionSchema × System) :=
      if ¬ sys.hasActionSchema schemaName then
        sys.createActionSchema schemaName false
      else
        match sys.getActionSchema schemaName with
        | .ok sc => .ok (sc, sys)
        | .error e => .error e
    match acquire with
    | .error e => .error e
    | .ok (schema, sys1) =>
      match processActionList schema (nodesFrom (str "action") schemaNode.children) with
      | .error e => .error e
      | .ok schema' =>
        .ok (0, { sys1 with mActionSchemas := setAssoc sys1.mActionSchemas schemaName schema' })

/-- The schema-node loop of `System::loadActionSchemaFromXML`
(source lines 410-413): each node's status code is discarded, the System
state threads through. -/
def processSchemaList : System → List XmlNode → Except Err System
  | sys, [] => .ok sys
  | sys, child :: rest =>
    match processSchemaXML sys child with
    | .error e => .error e
    | .ok (_, sys') => processSchemaList sys' rest

/-- `System::loadActionSchemaFromXML` (source lines 401-416): the parsed
document's top-level nodes are searched for the first `schemas` node;
when absent, nothing happens and the call succeeds with 0; when present,
the nodes from its first `schema` child are processed and the call still
returns 0. -/
def loadActionSchemaFromXML (sys : System) (doc : List XmlNode) :
    Except Err (Nat × System) :=
  match firstNodeOf (str "schemas") doc with
  | none => .ok (0, sys)
  | some schemasNode =>
    match processSchemaList sys (nodesFrom (str "schema") schemasNode.children) with
    | .error e => .error e
    | .ok sys' => .ok (0, sys')

/-- `System::loadActionSchemaFromXMLFile` (source lines 378-399): the
file system is modelled as an optional content (`none` = the file cannot
be opened, which returns code 1) and the out-of-scope XML parser as the
already-parsed top-level node list handed to `loadActionSchemaFromXML`. -/
def loadActionSchemaFromXMLFile (sys : System) (file : Option (List XmlNode)) :
    Except Err (Nat × System) :=
  match file with
  | none => .ok (1, sys)
  | some doc => loadActionSchemaFromXML sys doc

/-! ## Persistence: saving (the binding portion of
`System::saveActionSchemaToXMLFile`, source lines 292-363) -/

/-- One `bind` node (source lines 304-324): a non-null slot always gets a
`role` attribute carrying the role label (even when that label is empty)
and its text is the Bindable's name, with the `(Bindable*)1` placeholder
printed as `"None"`; a null slot gets no attribute and its text is the
role label itself ("dummy bindable"). -/
def saveBindNode (slot : Str × BindTarget) : XmlNode :=
  match slot.2 with
  | .null => .mk (str "bind") [] slot.1 []
  | .reserved => .mk (str "bind") [⟨str "role", slot.1⟩] (str "None") []
  | .bound n => .mk (str "bind") [⟨str "role", slot.1⟩] n []

/-- One `binding` node (source lines 297-301 / 334-338): the `optional`
attribute is emitted only when the flag is set (and then always with
value `"1"`, the inner conditional being redundant), followed by one
`bind` child per slot. -/
def saveBindingNode (b : Binding) : XmlNode :=
  .mk (str "binding")
    (if b.mOptional then [⟨str "optional", if b.mOptional then str "1" else str "0"⟩] else [])
    []
    (b.mBindables.map saveBindNode)

/-- The bindings section of one action node: the source duplicates the
loop verbatim in its AnalogAxis branch (lines 292-328) and its other
branch (lines 329-363); both emit the same nodes. -/
def saveActionBindingNodes (a : Action) : List XmlNode :=
  if a.actionType = .AT_ANALOG_AXIS then a.mBindings.map saveBindingNode
  else a.mBindings.map saveBindingNode

/-- Attribute presence, as an observer for the theorems. -/
def XmlNode.hasAttrNamed (node : XmlNode) (n : Str) : Bool :=
  (firstAttr node.attrs n).isSome

/-- Attribute value observer. -/
def XmlNode.attrValue (node : XmlNode) (n : Str) : Option Str :=
  (firstAttr node.attrs n).map XmlAttr.value

/-! ## Helper lemmas -/

theorem strFindAux_of_not_mem {t : Char} {p : Str} (h : t ∉ p) (k : Nat) :
    strFindAux t p k = npos := by
  induction p generalizing k with
  | nil => rfl
  | cons c cs ih =>
    simp only [List.mem_cons, not_or] at h
    rw [strFindAux, if_neg (fun hc : c = t => h.1 hc.symm), ih h.2]

theorem strFindAux_append {t : Char} {d s : Str} (h : t ∉ d) (k : Nat) :
    strFindAux t (d ++ t :: s) k = k + d.length := by
  induction d generalizing k with
  | nil => simp [strFindAux]
  | cons c cs ih =>
    simp only [List.mem_cons, not_or] at h
    simp only [List.cons_append, strFindAux, List.append_eq, if_neg (Ne.symm h.1)]
    rw [ih h.2]
    simp [Nat.add_comm, Nat.add_assoc, Nat.add_left_comm]

theorem strFind_append {t : Char} {d s : Str} (h : t ∉ d) :
    strFind (d ++ t :: s) t = d.length := by
  simpa using strFindAux_append h 0

theorem strFind_of_not_mem {t : Char} {p : Str} (h : t ∉ p) :
    strFind p t = npos := strFindAux_of_not_mem h 0

theorem substr_zero_take (s : Str) (cnt : Nat) :
    substr s 0 cnt = .ok (s.take cnt) := by
  simp [substr]

theorem take_append_length (d s : Str) (t : Char) :
    (d ++ t :: s).take d.length = d :=
  List.take_left d (t :: s)

theorem substr_suffix (d s : Str) (t : Char) (hs : s.length ≤ npos) :
    substr (d ++ t :: s) (d.length + 1) npos = .ok s := by
  have h1 : d.length + 1 ≤ (d ++ t :: s).length := by
    simp [List.length_append]
  have h2 : d ++ t :: s = (d ++ [t]) ++ s := by simp
  have h3 : ((d ++ [t]) ++ s).drop (d.length + 1) = s := by
    have h4 := List.drop_left (d ++ [t]) s
    simp only [List.length_append, List.length_cons, List.length_nil] at h4
    exact h4
  rw [substr, if_pos h1, h2, h3, List.take_of_length_le hs]

/-- Claim C1: for a path `D ++ "/" ++ S` (with a slash-free device name,
as all registered device names are), `lookupState` returns exactly
`getDevice(D).getState(S)` when both succeed, and null — with no
exception — when the device or the state is missing. -/
theorem lookupState_path_correct (sys : System) (d s : Str)
    (hd : '/' ∉ d) (hs : s.length ≤ npos) (hdl : d.length + 1 < size64) :
    sys.lookupState (d ++ '/' :: s) =
      .ok (match sys.getDevice d with
           | .ok dev => exceptToOption (dev.getState s)
           | .error _ => none) := by
  have hi : strFind (d ++ '/' :: s) '/' = d.length := strFind_append hd
  simp only [System.lookupState, hi, substr_zero_take, take_append_length,
    Nat.mod_eq_of_lt hdl, substr_suffix _ _ _ hs, System.hasDevice, System.getDevice,
    Device.hasState, Device.getState]
  cases hdev : lookupAssoc sys.mDevices d with
  | none => simp
  | some dev =>
    simp only [Option.isSome_some, if_true]
    cases hst : lookupAssoc dev.states s with
    | none => simp [exceptToOption]
    | some st => simp [exceptToOption]

/-- A concrete keyboard device for the witnesses. -/
def kbDevice : Device := ⟨[(str "W", 7)]⟩

/-- A concrete system with one device and one schema for the witnesses. -/
def sysOne : System :=
  ⟨[(str "Keyboard", kbDevice)],
   [(str "Gameplay", ⟨0, str "Gameplay", [(str "Jump", ⟨str "Jump", .AT_TRIGGER, [], []⟩)]⟩)],
   none, 1⟩

/-- Witness for C1: on the concrete system, `lookupState "Keyboard/W"`
agrees with `getDevice("Keyboard").getState("W")`. -/
theorem lookupState_path_correct_witness :
    ('/' ∉ str "Keyboard") ∧
    sysOne.lookupState (str "Keyboard" ++ '/' :: str "W") =
      .ok (match sysOne.getDevice (str "Keyboard") with
           | .ok dev => exceptToOption (dev.getState (str "W"))
           | .error _ => none) :=
  ⟨by decide,
   lookupState_path_correct sysOne (str "Keyboard") (str "W")
     (by decide) (by decide) (by decide)⟩

/-- Claim C8: for a path `Schema ++ "/" ++ Action` (slash-free schema
name), `lookupAction` yields the named Action when schema and action both
exist; on a miss it yields null when `throwOnMissing` is false and raises
`OIS::E_General` when it is true. -/
theorem lookupAction_path_correct (sys : System) (c a : Str) (tom : Bool)
    (hc : '/' ∉ c) (ha : a.length ≤ npos) (hcl : c.length + 1 < size64) :
    sys.lookupAction (c ++ '/' :: a) tom =
      match exceptToOption (sys.getActionSchema c) with
      | some schema =>
        match exceptToOption (schema.getAction a) with
        | some act => .ok (some act)
        | none => if tom then .error .general else .ok none
      | none => if tom then .error .general else .ok none := by
  have hi : strFind (c ++ '/' :: a) '/' = c.length := strFind_append hc
  simp only [System.lookupAction, hi, substr_zero_take, take_append_length,
    Nat.mod_eq_of_lt hcl, substr_suffix _ _ _ ha, System.hasActionSchema,
    System.getActionSchema, ActionSchema.hasAction, ActionSchema.getAction]
  cases hsc : lookupAssoc sys.mActionSchemas c with
  | none => simp [exceptToOption]
  | some schema =>
    simp only [Option.isSome_some, if_true, exceptToOption]
    cases hac : lookupAssoc schema.mActions a with
    | none => simp [exceptToOption]
    | some act => simp [exceptToOption]

/-- Witness for C8: on the concrete system, a missing action with
`throwOnMissing = true` raises, matching the theorem's right-hand side. -/
theorem lookupAction_path_correct_witness :
    ('/' ∉ str "Gameplay") ∧
    sysOne.lookupAction (str "Gameplay" ++ '/' :: str "Fire") true =
      (match exceptToOption (sysOne.getActionSchema (str "Gameplay")) with
       | some schema =>
         match exceptToOption (schema.getAction (str "Fire")) with
         | some act => .ok (some act)
         | none => if true then .error .general else .ok none
       | none => if true then .error .general else .ok none) :=
  ⟨by decide,
   lookupAction_path_correct sysOne (str "Gameplay") (str "Fire") true
     (by decide) (by decide) (by decide)⟩

/-- Claim C9: a path with no `"/"`: `find` returns `npos`, `substr(0, npos)`
is the whole string, and `npos + 1` wraps to `0` in `size_type`
arithmetic, so the whole path serves as both the container name and the
member name — in a device named X a state named X is sought, in a schema
named X an action named X — and with `throwOnMissing = false` neither
lookup raises. -/
theorem lookup_no_separator (sys : System) (p : Str)
    (hp : '/' ∉ p) (hl : p.length ≤ npos) :
    (sys.lookupState p =
      .ok (match sys.getDevice p with
           | .ok dev => exceptToOption (dev.getState p)
           | .error _ => none)) ∧
    (sys.lookupAction p false =
      match exceptToOption (sys.getActionSchema p) with
      | some schema =>
        match exceptToOption (schema.getAction p) with
        | some act => .ok (some act)
        | none => .ok none
      | none => .ok none) := by
  have hi : strFind p '/' = npos := strFind_of_not_mem hp
  have hwrap : (npos + 1) % size64 = 0 := by decide
  have htake : p.take npos = p := List.take_of_length_le hl
  constructor
  · simp only [System.lookupState, hi, substr_zero_take, htake, hwrap,
      System.hasDevice, System.getDevice, Device.hasState, Device.getState]
    cases hdev : lookupAssoc sys.mDevices p with
    | none => simp
    | some dev =>
      simp only [Option.isSome_some, if_true]
      cases hst : lookupAssoc dev.states p with
      | none => simp [exceptToOption]
      | some st => simp [exceptToOption]
  · simp only [System.lookupAction, hi, substr_zero_take, htake, hwrap,
      System.hasActionSchema, System.getActionSchema, ActionSchema.hasAction,
      ActionSchema.getAction]
    cases hsc : lookupAssoc sys.mActionSchemas p with
    | none => simp [exceptToOption]
    | some schema =>
      simp only [Option.isSome_some, if_true]
      cases hac : lookupAssoc schema.mActions p with
      | none => simp [hac, exceptToOption]
      | some act => simp [hac, exceptToOption]

/-- A system whose device `"X"` has a state also named `"X"`,
for the C9 witness. -/
def sysSame : System :=
  ⟨[(str "X", ⟨[(str "X", 3)]⟩)],
   [(str "X", ⟨0, str "X", [(str "X", ⟨str "X", .AT_TRIGGER, [], []⟩)]⟩)],
   none, 1⟩

/-- Witness for C9: the separator-less path `"X"` finds state `"X"` of
device `"X"` and action `"X"` of schema `"X"` without raising. -/
theorem lookup_no_separator_witness :
    ('/' ∉ str "X") ∧
    (sysSame.lookupState (str "X") =
      .ok (match sysSame.getDevice (str "X") with
           | .ok dev => exceptToOption (dev.getState (str "X"))
           | .error _ => none)) ∧
    (sysSame.lookupAction (str "X") false =
      match exceptToOption (sysSame.getActionSchema (str "X")) with
      | some schema =>
        match exceptToOption (schema.getAction (str "X")) with
        | some act => .ok (some act)
        | none => .ok none
      | none => .ok none) :=
  ⟨by decide,
   (lookup_no_separator sysSame (str "X") (by decide) (by decide)).1,
   (lookup_no_separator sysSame (str "X") (by decide) (by decide)).2⟩

theorem firstNodeOf_eq_none {tag : Str} {l : List XmlNode}
    (h : ∀ n ∈ l, n.tag ≠ tag) : firstNodeOf tag l = none := by
  induction l with
  | nil => rfl
  | cons c rest ih =>
    rw [firstNodeOf, if_neg (h c (List.mem_cons_self c rest))]
    exact ih fun n hn => h n (List.mem_cons_of_mem c hn)

/-- Claim C2: loading a document with no top-level `schemas` node returns
the success status 0, raises nothing, and leaves the whole System — in
particular its action-schema registry — exactly as it was. -/
theorem load_without_schemas_node (sys : System) (doc : List XmlNode)
    (h : ∀ n ∈ doc, n.tag ≠ str "schemas") :
    loadActionSchemaFromXML sys doc = .ok (0, sys) := by
  rw [loadActionSchemaFromXML, firstNodeOf_eq_none h]

/-- Witness for C2: a document holding only the declaration node and a
stray element is loaded with status 0 and an untouched system. -/
theorem load_without_schemas_node_witness :
    (∀ n ∈ [XmlNode.mk (str "xml") [] [] [], XmlNode.mk (str "stuff") [] [] []],
      n.tag ≠ str "schemas") ∧
    loadActionSchemaFromXML sysOne
      [XmlNode.mk (str "xml") [] [] [], XmlNode.mk (str "stuff") [] [] []] =
      .ok (0, sysOne) :=
  ⟨by decide,
   load_without_schemas_node sysOne
     [XmlNode.mk (str "xml") [] [] [], XmlNode.mk (str "stuff") [] [] []]
     (by decide)⟩

theorem lookupAssoc_append_self {α : Type} {l : List (Str × α)} {k : Str} {v : α}
    (h : lookupAssoc l k = none) : lookupAssoc (l ++ [(k, v)]) k = some v := by
  induction l with
  | nil => simp [lookupAssoc]
  | cons p rest ih =>
    rw [lookupAssoc] at h
    by_cases hk : p.1 = k
    · simp [hk] at h
    · cases p with
      | mk k' v' =>
        simp only at hk
        rw [if_neg hk] at h
        rw [List.cons_append, lookupAssoc, if_neg hk]
        exact ih h

theorem lookupAssoc_append_other {α : Type} {l : List (Str × α)} {k k' : Str} {v : α}
    (h : k' ≠ k) : lookupAssoc (l ++ [(k, v)]) k' = lookupAssoc l k' := by
  induction l with
  | nil =>
    simp only [List.nil_append, lookupAssoc, if_neg (fun hc : k = k' => h hc.symm)]
  | cons p rest ih =>
    cases p with
    | mk q w =>
      rw [List.cons_append, lookupAssoc, lookupAssoc]
      by_cases hq : q = k'
      · rw [if_pos hq, if_pos hq]
      · rw [if_neg hq, if_neg hq]
        exact ih

/-- Claim C7: `createActionSchema` with a name already in the registry
fails with the Duplicate error (in the source the exception is thrown
before any mutation, so the caller's registry is untouched); with a fresh
name it always succeeds, registering the returned schema under that name
and leaving every other registry entry unchanged. -/
theorem createActionSchema_correct (sys : System) (name : Str) (d : Bool) :
    ((lookupAssoc sys.mActionSchemas name).isSome = true →
      sys.createActionSchema name d = .error .duplicate) ∧
    (lookupAssoc sys.mActionSchemas name = none →
      ∃ sc sys', sys.createActionSchema name d = .ok (sc, sys') ∧
        sc.name = name ∧
        lookupAssoc sys'.mActionSchemas name = some sc ∧
        (∀ k, k ≠ name →
          lookupAssoc sys'.mActionSchemas k = lookupAssoc sys.mActionSchemas k)) := by
  constructor
  · intro h
    rw [System.createActionSchema, if_pos h]
  · intro h
    cases d with
    | false =>
      refine ⟨⟨sys.nextId, name, []⟩,
        { sys with
          mActionSchemas := sys.mActionSchemas ++ [(name, ⟨sys.nextId, name, []⟩)],
          nextId := sys.nextId + 1 },
        ?_, rfl, lookupAssoc_append_self h, fun k hk => lookupAssoc_append_other hk⟩
      rw [System.createActionSchema, if_neg (by simp [h])]
      rfl
    | true =>
      refine ⟨⟨sys.nextId, name, []⟩,
        { sys with
          mActionSchemas := sys.mActionSchemas ++ [(name, ⟨sys.nextId, name, []⟩)],
          mDefaultActionSchema := some sys.nextId,
          nextId := sys.nextId + 1 },
        ?_, rfl, lookupAssoc_append_self h, fun k hk => lookupAssoc_append_other hk⟩
      rw [System.createActionSchema, if_neg (by simp [h])]
      rfl

/-- Witness for C7: on the concrete system, re-creating `"Gameplay"` is a
Duplicate error and creating `"Menu"` succeeds and registers it. -/
theorem createActionSchema_correct_witness :
    ((lookupAssoc sysOne.mActionSchemas (str "Gameplay")).isSome = true ∧
      sysOne.createActionSchema (str "Gameplay") false = .error .duplicate) ∧
    (lookupAssoc sysOne.mActionSchemas (str "Menu") = none ∧
      ∃ sc sys', sysOne.createActionSchema (str "Menu") false = .ok (sc, sys') ∧
        sc.name = str "Menu" ∧
        lookupAssoc sys'.mActionSchemas (str "Menu") = some sc ∧
        (∀ k, k ≠ str "Menu" →
          lookupAssoc sys'.mActionSchemas k = lookupAssoc sysOne.mActionSchemas k)) :=
  ⟨⟨by decide, (createActionSchema_correct sysOne (str "Gameplay") false).1 (by decide)⟩,
   ⟨by decide, (createActionSchema_correct sysOne (str "Menu") false).2 (by decide)⟩⟩

/-- Claim C6: `destroyActionSchema` erases the named schema from the
registry and nulls the default reference if and only if the destroyed
schema is (by pointer identity) the default; afterwards, when no schema
named `"Default"` remains, `getDefaultActionSchemaAutoCreate` allocates a
fresh schema named `"Default"` (a new allocation, not the destroyed
pointer) and returns it. -/
theorem destroyActionSchema_correct (sys : System) (name : Str) (s : ActionSchema)
    (hfind : lookupAssoc sys.mActionSchemas name = some s) :
    (sys.destroyActionSchema name =
      .ok { sys with
            mActionSchemas := eraseKey sys.mActionSchemas name,
            mDefaultActionSchema :=
              if sys.mDefaultActionSchema = some s.id then none
              else sys.mDefaultActionSchema }) ∧
    (sys.mDefaultActionSchema = some s.id →
      lookupAssoc (eraseKey sys.mActionSchemas name) (str "Default") = none →
      ∃ sys'',
        ({ sys with
           mActionSchemas := eraseKey sys.mActionSchemas name,
           mDefaultActionSchema := none } : System).getDefaultActionSchemaAutoCreate
            = .ok (some sys.nextId, sys'') ∧
        lookupAssoc sys''.mActionSchemas (str "Default") =
          some ⟨sys.nextId, str "Default", []⟩ ∧
        (s.id < sys.nextId → some sys.nextId ≠ some s.id)) := by
  constructor
  · by_cases hdef : sys.mDefaultActionSchema = some s.id <;>
      simp [System.destroyActionSchema, hfind, hdef]
  · intro _ hnoDef
    refine ⟨{ mDevices := sys.mDevices,
              mActionSchemas :=
                eraseKey sys.mActionSchemas name ++
                  [(str "Default", ⟨sys.nextId, str "Default", []⟩)],
              mDefaultActionSchema := some sys.nextId,
              nextId := sys.nextId + 1 }, ?_, ?_, ?_⟩
    · simp [System.getDefaultActionSchemaAutoCreate, System.createActionSchema, hnoDef]
    · exact lookupAssoc_append_self hnoDef
    · intro hlt hcontra
      exact absurd (Option.some.inj hcontra) (Nat.ne_of_gt hlt)

/-- A concrete system whose only schema is the default, for the
C6 witness. -/
def sysDef : System := ⟨[], [(str "Main", ⟨5, str "Main", []⟩)], some 5, 6⟩

/-- Witness for C6: destroying the default schema `"Main"` erases it and
nulls the default, and the subsequent auto-create allocates the fresh
schema `"Default"` with the new id 6 ≠ 5. -/
theorem destroyActionSchema_correct_witness :
    (lookupAssoc sysDef.mActionSchemas (str "Main") = some ⟨5, str "Main", []⟩) ∧
    (sysDef.destroyActionSchema (str "Main") =
      .ok { sysDef with
            mActionSchemas := eraseKey sysDef.mActionSchemas (str "Main"),
            mDefaultActionSchema :=
              if sysDef.mDefaultActionSchema = some (5 : Nat) then none
              else sysDef.mDefaultActionSchema }) ∧
    (∃ sys'',
      ({ sysDef with
         mActionSchemas := eraseKey sysDef.mActionSchemas (str "Main"),
         mDefaultActionSchema := none } : System).getDefaultActionSchemaAutoCreate
          = .ok (some sysDef.nextId, sys'') ∧
      lookupAssoc sys''.mActionSchemas (str "Default") =
        some ⟨sysDef.nextId, str "Default", []⟩ ∧
      ((5 : Nat) < sysDef.nextId → some sysDef.nextId ≠ some (5 : Nat))) :=
  ⟨by decide,
   (destroyActionSchema_correct sysDef (str "Main") ⟨5, str "Main", []⟩ (by decide)).1,
   (destroyActionSchema_correct sysDef (str "Main") ⟨5, str "Main", []⟩ (by decide)).2
     (by decide) (by decide)⟩

theorem firstAttr_isSome_of_mem {l : List XmlAttr} {n : Str}
    (h : ∃ a ∈ l, a.name = n) : (firstAttr l n).isSome = true := by
  induction l with
  | nil => simp at h
  | cons a rest ih =>
    rw [firstAttr]
    by_cases ha : a.name = n
    · rw [if_pos ha]; rfl
    · rw [if_neg ha]
      rcases h with ⟨x, hx, hxn⟩
      rcases List.mem_cons.mp hx with rfl | hx'
      · exact absurd hxn ha
      · exact ih ⟨x, hx', hxn⟩

theorem firstAttr_eq_none {l : List XmlAttr} {n : Str}
    (h : ∀ a ∈ l, a.name ≠ n) : firstAttr l n = none := by
  induction l with
  | nil => rfl
  | cons a rest ih =>
    rw [firstAttr, if_neg (h a (List.mem_cons_self a rest))]
    exact ih fun x hx => h x (List.mem_cons_of_mem a hx)

theorem processActionBindXML_preserves_mOptional (child : XmlNode) (b : Binding)
    (act : Action) :
    (((processActionBindXML child (some b) (some act)).2.1).getD b).mOptional = b.mOptional := by
  rw [processActionBindXML]
  by_cases hr : (match firstAttr child.attrs (str "role") with
                 | some a => a.value
                 | none => ([] : Str)) ≠ []
  · simp only [if_pos hr]
    rfl
  · simp only [if_neg hr]
    rfl

theorem bindFold_preserves_mOptional (l : List XmlNode) (b : Binding) (act : Action) :
    (l.foldl (fun b child => ((processActionBindXML child (some b) (some act)).2.1).getD b)
      b).mOptional = b.mOptional := by
  induction l generalizing b with
  | nil => rfl
  | cons child rest ih =>
    rw [List.foldl_cons, ih]
    exact processActionBindXML_preserves_mOptional child b act

/-- Claim C10: `processActionBindingXML` appends exactly one Binding to
the action and sets its optional flag from the mere presence of the
`optional` attribute (the pointer-to-bool conversion of
`first_attribute("optional")`): any attribute value — including `"0"` —
yields an optional binding, and only the absence of the attribute yields
a non-optional one; the call succeeds with code 0 either way. -/
theorem processActionBinding_optional_presence (node : XmlNode) (act : Action) :
    ∃ b : Binding,
      processActionBindingXML node (some act) =
        (0, some { act with mBindings := act.mBindings ++ [b] }) ∧
      ((∃ a ∈ node.attrs, a.name = str "optional") → b.mOptional = true) ∧
      ((∀ a ∈ node.attrs, a.name ≠ str "optional") → b.mOptional = false) := by
  refine ⟨(nodesFrom (str "bind") node.children).foldl
      (fun b child => ((processActionBindXML child (some b) (some act)).2.1).getD b)
      { mOptional := (firstAttr node.attrs (str "optional")).isSome, mBindables := [] },
    rfl, ?_, ?_⟩
  · intro hmem
    rw [bindFold_preserves_mOptional]
    exact firstAttr_isSome_of_mem hmem
  · intro habs
    rw [bindFold_preserves_mOptional]
    simp [firstAttr_eq_none habs]

/-- A bare Trigger action used by the load witnesses. -/
def actJump : Action := ⟨str "Jump", .AT_TRIGGER, [], []⟩

/-- Witness for C10: the binding node `<binding optional="0">` yields an
optional binding on a concrete action. -/
theorem processActionBinding_optional_presence_witness :
    ∃ b : Binding,
      processActionBindingXML
          (XmlNode.mk (str "binding") [⟨str "optional", str "0"⟩] [] []) (some actJump) =
        (0, some { actJump with mBindings := actJump.mBindings ++ [b] }) ∧
      b.mOptional = true := by
  obtain ⟨b, heq, hyes, -⟩ :=
    processActionBinding_optional_presence
      (XmlNode.mk (str "binding") [⟨str "optional", str "0"⟩] [] []) actJump
  exact ⟨b, heq, hyes (by decide)⟩

/-- The property-table updates applied by the attribute loop after the
action has been instantiated. -/
def applyProps (l : List XmlAttr) (a : Action) : Action :=
  l.foldl (fun ac x => ac.setProperty x.name x.value) a

theorem applyProps_name (l : List XmlAttr) (a : Action) :
    (applyProps l a).name = a.name := by
  induction l generalizing a with
  | nil => rfl
  | cons x rest ih =>
    show (applyProps rest (a.setProperty x.name x.value)).name = a.name
    rw [ih]
    rfl

theorem createActionOfType_name {t n : Str} {a : Action}
    (h : createActionOfType t n = some a) : a.name = n := by
  unfold createActionOfType at h
  split_ifs at h <;> exact (Option.some.inj h) ▸ rfl

theorem createActionOfType_type_ne_nil {t n : Str} {a : Action}
    (h : createActionOfType t n = some a) : t ≠ [] := by
  intro ht
  subst ht
  rw [show createActionOfType [] n = none from rfl] at h
  exact Option.noConfusion h

theorem actionAttrStep_other_none (schema : ActionSchema) {x : XmlAttr}
    (hx1 : x.name ≠ str "type") (hx2 : x.name ≠ str "name") :
    actionAttrStep schema (.ok ([], [], none)) x = .ok ([], [], none) := by
  simp only [actionAttrStep]
  rw [if_neg hx1, if_neg hx2]
  exact if_neg (fun hc => hc.1 rfl)

theorem actionAttrStep_other_some (schema : ActionSchema) {x : XmlAttr}
    (t n : Str) (a : Action)
    (hx1 : x.name ≠ str "type") (hx2 : x.name ≠ str "name") :
    actionAttrStep schema (.ok (t, n, some a)) x =
      .ok (t, n, some (a.setProperty x.name x.value)) := by
  simp only [actionAttrStep]
  rw [if_neg hx1, if_neg hx2]
  exact if_neg (fun hc => Option.noConfusion hc.2.2)

theorem attrFold_other_none (schema : ActionSchema) {l : List XmlAttr}
    (h : ∀ x ∈ l, x.name ≠ str "type" ∧ x.name ≠ str "name") :
    l.foldl (actionAttrStep schema) (.ok ([], [], none)) = .ok ([], [], none) := by
  induction l with
  | nil => rfl
  | cons x rest ih =>
    have hx := h x (List.mem_cons_self x rest)
    rw [List.foldl_cons, actionAttrStep_other_none schema hx.1 hx.2]
    exact ih fun y hy => h y (List.mem_cons_of_mem x hy)

theorem attrFold_with_action (schema : ActionSchema) {l : List XmlAttr}
    (t n : Str) (a : Action)
    (h : ∀ x ∈ l, x.name ≠ str "type" ∧ x.name ≠ str "name") :
    l.foldl (actionAttrStep schema) (.ok (t, n, some a)) =
      .ok (t, n, some (applyProps l a)) := by
  induction l generalizing a with
  | nil => rfl
  | cons x rest ih =>
    have hx := h x (List.mem_cons_self x rest)
    rw [List.foldl_cons, actionAttrStep_other_some schema t n a hx.1 hx.2]
    exact ih (a.setProperty x.name x.value) fun y hy => h y (List.mem_cons_of_mem x hy)

/-- Claim C4 (amended): the `type` and `name` attributes must indeed both
be read before any other attribute takes effect, but an attribute
encountered before the action is instantiable is **silently dropped** —
not reported as a format error (the node still returns code 0); once both
`type` and `name` are known and the type is recognised, the action is
instantiated and every remaining attribute, unknown ones included, is
accepted and stored via the property table.  The action name is assumed
fresh in the schema: on a collision `createAction` raises Duplicate (in
the model as in the program) instead of storing anything. -/
theorem processActionXML_attr_order (pre post : List XmlAttr) (t n : Str)
    (a : Action) (schema : ActionSchema) (tag text : Str)
    (hpre : ∀ x ∈ pre, x.name ≠ str "type" ∧ x.name ≠ str "name")
    (hpost : ∀ x ∈ post, x.name ≠ str "type" ∧ x.name ≠ str "name")
    (hn : n ≠ [])
    (hcreate : createActionOfType t n = some a)
    (hfresh : schema.hasAction n = false) :
    processActionXML
        (XmlNode.mk tag (pre ++ ⟨str "type", t⟩ :: ⟨str "name", n⟩ :: post) text [])
        schema =
      .ok (0, { schema with
                mActions := setAssoc schema.mActions n (applyProps post a) }) := by
  have ht : t ≠ [] := createActionOfType_type_ne_nil hcreate
  have hcre : createActionInSchema schema t n = .ok (some a) := by
    simp only [createActionInSchema, hcreate, hfresh]
    rfl
  have hstep1 : actionAttrStep schema (.ok ([], [], none)) ⟨str "type", t⟩
      = .ok (t, [], none) := by
    show (if t ≠ [] ∧ ([] : Str) ≠ [] ∧ (none : Option Action) = none
          then (match createActionInSchema schema t [] with
                | Except.error e => Except.error e
                | Except.ok created => Except.ok (t, ([] : Str), created)
                : Except Err (Str × Str × Option Action))
          else Except.ok (t, [], none)) = Except.ok (t, [], none)
    exact if_neg (fun hc => hc.2.1 rfl)
  have hstep2 : actionAttrStep schema (.ok (t, [], none)) ⟨str "name", n⟩
      = .ok (t, n, some a) := by
    show (if t ≠ [] ∧ n ≠ [] ∧ (none : Option Action) = none
          then (match createActionInSchema schema t n with
                | Except.error e => Except.error e
                | Except.ok created => Except.ok (t, n, created)
                : Except Err (Str × Str × Option Action))
          else Except.ok (t, n, none)) = Except.ok (t, n, some a)
    rw [if_pos ⟨ht, hn, rfl⟩, hcre]
  have hfold :
      (pre ++ ⟨str "type", t⟩ :: ⟨str "name", n⟩ :: post).foldl
          (actionAttrStep schema) (.ok ([], [], none))
        = .ok (t, n, some (applyProps post a)) := by
    rw [List.foldl_append, attrFold_other_none schema hpre, List.foldl_cons, hstep1,
      List.foldl_cons, hstep2, attrFold_with_action schema t n a hpost]
  simp only [processActionXML, XmlNode.attrs, XmlNode.children, hfold, nodesFrom,
    List.foldl_nil]
  rw [applyProps_name, createActionOfType_name hcreate]

/-- The schema used by the load witnesses and counterexamples. -/
def schemaS : ActionSchema := ⟨0, str "S", []⟩

/-- The Trigger action `"A"` produced by the C4 witness node. -/
def trigA : Action := ⟨str "A", .AT_TRIGGER, [], []⟩

/-- Counterexample for C4 as stated: the attribute `Sensitivity="2"`
comes before `type`/`name`, so the action is not yet instantiable when it
is read — yet `processActionXML` reports **no** format error: it returns
status 0 and simply drops the attribute (the created action's property
table is empty). -/
theorem processActionXML_early_attr_not_an_error :
    processActionXML
        (XmlNode.mk (str "action")
          [⟨str "Sensitivity", str "2"⟩, ⟨str "type", str "Trigger"⟩,
           ⟨str "name", str "A"⟩] [] [])
        schemaS =
      .ok (0, ⟨0, str "S", [(str "A", trigA)]⟩) := rfl

/-- Witness for C4 (amended): a pre-instantiation attribute `Custom` is
dropped, a post-instantiation attribute `Sensitivity` is stored; the
schema is fresh for action `"A"`. -/
theorem processActionXML_attr_order_witness :
    (createActionOfType (str "Trigger") (str "A") = some trigA) ∧
    (schemaS.hasAction (str "A") = false) ∧
    processActionXML
        (XmlNode.mk (str "action")
          ([⟨str "Custom", str "1"⟩] ++ ⟨str "type", str "Trigger"⟩ ::
            ⟨str "name", str "A"⟩ :: [⟨str "Sensitivity", str "2"⟩]) [] [])
        schemaS =
      .ok (0, { schemaS with
                mActions := setAssoc schemaS.mActions (str "A")
                  (applyProps [⟨str "Sensitivity", str "2"⟩] trigA) }) :=
  ⟨rfl, by decide,
   processActionXML_attr_order [⟨str "Custom", str "1"⟩] [⟨str "Sensitivity", str "2"⟩]
     (str "Trigger") (str "A") trigA schemaS (str "action") []
     (by decide) (by decide) (by decide) rfl (by decide)⟩

/-- Whether a bind slot's Bindable pointer is null. -/
def BindTarget.isNull : BindTarget → Bool
  | .null => true
  | _ => false

/-- Claim C3 (amended): a saved binding node carries the `optional`
attribute exactly when the binding's optional flag is set (then always
with value `"1"`), and emits one bind child per slot; a saved bind node
carries the `role` attribute exactly when the slot's Bindable **pointer
is non-null** — also when the role label is the empty string — with the
label as its value, and its text is the bound Bindable's name, the
literal `"None"` for the reserved-but-unbound placeholder, or the role
label itself for a null slot (which gets no `role` attribute). -/
theorem saveBinding_attrs_correct (b : Binding) (role : Str) (t : BindTarget) :
    ((saveBindingNode b).hasAttrNamed (str "optional") = b.mOptional) ∧
    (b.mOptional = true →
      (saveBindingNode b).attrValue (str "optional") = some (str "1")) ∧
    ((saveBindingNode b).children = b.mBindables.map saveBindNode) ∧
    ((saveBindNode (role, t)).hasAttrNamed (str "role") = !t.isNull) ∧
    (t.isNull = false →
      (saveBindNode (role, t)).attrValue (str "role") = some role) ∧
    ((saveBindNode (role, t)).text =
      match t with
      | .null => role
      | .reserved => str "None"
      | .bound n => n) := by
  refine ⟨?_, ?_, ?_, ?_, ?_, ?_⟩
  · cases hb : b.mOptional <;>
      simp [saveBindingNode, XmlNode.hasAttrNamed, XmlNode.attrs, firstAttr, hb]
  · intro hb
    simp [saveBindingNode, XmlNode.attrValue, XmlNode.attrs, firstAttr, hb]
  · cases hb : b.mOptional <;> simp [saveBindingNode, XmlNode.children, hb]
  · cases t <;> rfl
  · intro hnull
    cases t with
    | null => exact absurd hnull (by simp [BindTarget.isNull])
    | reserved => rfl
    | bound n => rfl
  · cases t <;> rfl

/-- Counterexample for C3 as stated: the claim says a bind node carries a
`role` attribute exactly when the role label is non-empty; but for a slot
with an **empty** role label and a bound Bindable, the saved bind node
does carry a `role` attribute (with empty value). -/
theorem saveBindNode_role_attr_on_empty_role :
    (saveBindNode ([], .bound (str "Keyboard/W"))).hasAttrNamed (str "role") = true ∧
    (saveBindNode ([], .bound (str "Keyboard/W"))).attrValue (str "role") = some [] := by
  exact ⟨rfl, rfl⟩

/-- Witness for C3 (amended): an optional binding serialises with
`optional="1"`, and a reserved slot with role `"Positive"` serialises
with `role="Positive"` and text `"None"`. -/
theorem saveBinding_attrs_correct_witness :
    ((saveBindingNode ⟨true, []⟩).attrValue (str "optional") = some (str "1")) ∧
    ((saveBindNode (str "Positive", .reserved)).attrValue (str "role") =
      some (str "Positive")) ∧
    ((saveBindNode (str "Positive", .reserved)).text =
      match BindTarget.reserved with
      | .null => str "Positive"
      | .reserved => str "None"
      | .bound n => n) :=
  ⟨(saveBinding_attrs_correct ⟨true, []⟩ (str "Positive") .reserved).2.1 rfl,
   (saveBinding_attrs_correct ⟨true, []⟩ (str "Positive") .reserved).2.2.2.2.1 rfl,
   (saveBinding_attrs_correct ⟨true, []⟩ (str "Positive") .reserved).2.2.2.2.2⟩

theorem processSchemaXML_missing_name (sys : System) (node : XmlNode)
    (h : firstAttr node.attrs (str "name") = none) :
    processSchemaXML sys node = .ok (2, sys) := by
  rw [processSchemaXML, h]

theorem attrFold_no_name (schema : ActionSchema) (l : List XmlAttr)
    (h : ∀ x ∈ l, x.name ≠ str "name") :
    ∀ t0 : Str, ∃ t',
      l.foldl (actionAttrStep schema) (.ok (t0, [], none)) = .ok (t', [], none) := by
  induction l with
  | nil => intro t0; exact ⟨t0, rfl⟩
  | cons x rest ih =>
    intro t0
    have hx := h x (List.mem_cons_self x rest)
    have ih' := ih fun y hy => h y (List.mem_cons_of_mem x hy)
    by_cases htype : x.name = str "type"
    · have hstep : actionAttrStep schema (.ok (t0, [], none)) x
          = .ok (x.value, [], none) := by
        simp only [actionAttrStep]
        rw [if_pos htype]
        exact if_neg (fun hc => hc.2.1 rfl)
      rw [List.foldl_cons, hstep]
      exact ih' x.value
    · have hstep : actionAttrStep schema (.ok (t0, [], none)) x
          = .ok (t0, [], none) := by
        simp only [actionAttrStep]
        rw [if_neg htype, if_neg hx]
        exact if_neg (fun hc => hc.2.1 rfl)
      rw [List.foldl_cons, hstep]
      exact ih' t0

theorem bindingFold_none (l : List XmlNode) :
    l.foldl (fun t child => (processActionBindingXML child t).2)
      (none : Option Action) = none := by
  induction l with
  | nil => rfl
  | cons c rest ih =>
    rw [List.foldl_cons]
    exact ih

theorem bindFold_none (l : List XmlNode) :
    l.foldl (fun t child => (processActionBindXML child none t).2.2)
      (none : Option Action) = none := by
  induction l with
  | nil => rfl
  | cons c rest ih =>
    rw [List.foldl_cons]
    exact ih

theorem processActionXML_no_name (node : XmlNode) (schema : ActionSchema)
    (h : ∀ x ∈ node.attrs, x.name ≠ str "name") :
    processActionXML node schema = .ok (0, schema) := by
  obtain ⟨t', hfold⟩ := attrFold_no_name schema node.attrs h []
  simp only [processActionXML, hfold]
  rw [bindingFold_none, bindFold_none]

/-- Claim C5 (amended): loading from a file that cannot be opened returns
status 1 without raising; a **schema** node missing its `name` attribute
makes `processSchemaXML` return the malformed code 2 for that node, the
schema-node loop continues with the remaining siblings unaffected, and
the top-level load still returns 0; an **action** node missing its `name`
attribute, however, does not produce code 2 — `processActionXML` returns
0 and the action is silently not created, leaving the schema unchanged. -/
theorem load_status_codes :
    (∀ sys : System, loadActionSchemaFromXMLFile sys none = .ok (1, sys)) ∧
    (∀ (sys : System) (node : XmlNode), firstAttr node.attrs (str "name") = none →
      processSchemaXML sys node = .ok (2, sys)) ∧
    (∀ (node : XmlNode) (schema : ActionSchema),
      (∀ x ∈ node.attrs, x.name ≠ str "name") →
      processActionXML node schema = .ok (0, schema)) ∧
    (∀ (sys : System) (bad : XmlNode) (rest : List XmlNode),
      firstAttr bad.attrs (str "name") = none →
      processSchemaList sys (bad :: rest) = processSchemaList sys rest) ∧
    (∀ (sys : System) (sa : List XmlAttr) (stext : Str) (ch doc : List XmlNode)
        (sys' : System),
      processSchemaList sys (nodesFrom (str "schema") ch) = .ok sys' →
      loadActionSchemaFromXML sys (XmlNode.mk (str "schemas") sa stext ch :: doc) =
        .ok (0, sys')) := by
  refine ⟨fun sys => rfl, processSchemaXML_missing_name, processActionXML_no_name, ?_, ?_⟩
  · intro sys bad rest h
    rw [processSchemaList, processSchemaXML_missing_name sys bad h]
  · intro sys sa stext ch doc sys' h
    rw [loadActionSchemaFromXML,
      show firstNodeOf (str "schemas") (XmlNode.mk (str "schemas") sa stext ch :: doc)
          = some (XmlNode.mk (str "schemas") sa stext ch) from by
        rw [firstNodeOf, XmlNode.tag, if_pos rfl]]
    simp only [XmlNode.children, h]

/-- Counterexample for C5 as stated: an action node missing its `name`
attribute does **not** make the per-node routine return the malformed
code 2 — `processActionXML` returns 0 and leaves the schema unchanged. -/
theorem processActionXML_missing_name_not_code2 :
    processActionXML (XmlNode.mk (str "action") [⟨str "type", str "Trigger"⟩] [] [])
        schemaS = .ok (0, schemaS) ∧
    (exceptToOption (processActionXML
        (XmlNode.mk (str "action") [⟨str "type", str "Trigger"⟩] [] [])
        schemaS)).map Prod.fst ≠ some 2 :=
  ⟨rfl, by decide⟩

/-- The malformed schema node (no `name` attribute) of the C5 witness. -/
def badSchemaNode : XmlNode := XmlNode.mk (str "schema") [⟨str "x", str "y"⟩] [] []

/-- Witness for C5 (amended), on concrete inputs: unopenable file gives 1;
a nameless schema node gives 2 at its level and is skipped by the loop;
a nameless action node gives 0; the top-level load returns 0. -/
theorem load_status_codes_witness :
    (loadActionSchemaFromXMLFile sysOne none = .ok (1, sysOne)) ∧
    (processSchemaXML sysOne badSchemaNode = .ok (2, sysOne)) ∧
    (processActionXML (XmlNode.mk (str "action") [] [] []) schemaS = .ok (0, schemaS)) ∧
    (processSchemaList sysOne [badSchemaNode] = processSchemaList sysOne []) ∧
    (loadActionSchemaFromXML sysOne [XmlNode.mk (str "schemas") [] [] []] =
      .ok (0, sysOne)) :=
  ⟨load_status_codes.1 sysOne,
   load_status_codes.2.1 sysOne badSchemaNode (by decide),
   load_status_codes.2.2.1 (XmlNode.mk (str "action") [] [] []) schemaS (by decide),
   load_status_codes.2.2.2.1 sysOne badSchemaNode [] (by decide),
   load_status_codes.2.2.2.2 sysOne [] [] [] [] sysOne rfl⟩

end OISB
